import Mathlib

/-
Verification of the response-normalization core of the unity-mcp-advanced
repository (src/advanced-mcp/tools/unity.js) and of the interactive
wait_for_user tool (terminal tools module).

The JavaScript source works on untyped JSON values, so upstream payloads are
embedded as an inductive `JValue` type.  JavaScript-specific behaviours that
the source relies on are made explicit:
  - truthiness (`if (x)`): empty string, 0, false, null/undefined are falsy,
    arrays and objects are always truthy (`truthy`);
  - strict equality (`!==`): compares atoms by value; two distinct
    JSON-parsed objects or arrays are distinct references, hence never
    strictly equal (`strictEq`);
  - property access on `null`/`undefined` throws a TypeError; access on other
    primitives yields `undefined` (embedded as `JValue.null`), except the
    `length` property of strings and arrays (`prop`);
  - `.map` called on a non-array throws a TypeError.
Thrown TypeErrors are embedded with `Except JsError`.  `undefined` is
conflated with `null`; the two are interchangeable at every point this code
observes them (truthiness tests and strict comparisons against truthy
values).
-/

namespace UnityMCP

/-- A JSON value as produced by `JSON.parse` of an upstream response body. -/
inductive JValue where
  | null
  | bool (b : Bool)
  | num (n : Int)
  | str (s : String)
  | arr (elems : List JValue)
  | obj (fields : List (String × JValue))

/-- First-match field lookup in an object literal (JS objects have unique
keys after `JSON.parse`, so first-match agrees with JS lookup). -/
def lookupField : List (String × JValue) → String → Option JValue
  | [], _ => none
  | (k, v) :: rest, key => if k = key then some v else lookupField rest key

/-- JavaScript truthiness. -/
def truthy : JValue → Bool
  | .null => false
  | .bool b => b
  | .num n => n ≠ 0
  | .str s => s ≠ ""
  | .arr _ => true
  | .obj _ => true

/-- Does `Array.isArray` hold? -/
def JValue.isArr : JValue → Bool
  | .arr _ => true
  | _ => false

/-- JavaScript strict equality `===` restricted to JSON-parsed data: atoms
compare by value; objects and arrays compare by reference, and two values
read out of distinct fields of a parsed response are distinct references,
so they are never strictly equal. -/
def strictEq : JValue → JValue → Bool
  | .null, .null => true
  | .bool a, .bool b => a = b
  | .num a, .num b => a = b
  | .str a, .str b => a = b
  | _, _ => false

/-- `typeof x === "object"` (true for null, objects and arrays). -/
def typeofIsObject : JValue → Bool
  | .null => true
  | .arr _ => true
  | .obj _ => true
  | _ => false

/-- Property access `v[k]` for a receiver on which access does not throw:
object fields by lookup (absent fields give `undefined`, conflated with
`null`), the `length` of strings and arrays, `undefined` otherwise. -/
def prop : JValue → String → JValue
  | .obj fs, k => (lookupField fs k).getD .null
  | .str s, k => if k = "length" then .num s.length else .null
  | .arr xs, k => if k = "length" then .num (xs.length : Int) else .null
  | _, _ => .null

/-- JavaScript `a || b`: the first operand if truthy, otherwise the second. -/
def jsOr (a b : JValue) : JValue := if truthy a then a else b

/-- JavaScript `x > 0` for the values the source compares (`errors.length`).
Only the numeric case is ever exercised by well-shaped payloads. -/
def jsGtZero : JValue → Bool
  | .num n => 0 < n
  | .str s => match s.toInt? with | some n => 0 < n | none => false
  | .bool b => b
  | _ => false

mutual

/-- String conversion as performed by template literals and `toString()`:
strings unchanged, numbers and booleans printed, arrays joined by commas
(with null elements rendered empty), plain objects as `[object Object]`. -/
def jToString : JValue → String
  | .null => "null"
  | .bool b => if b then "true" else "false"
  | .num n => toString n
  | .str s => s
  | .arr xs => String.intercalate "," (jToStringElems xs)
  | .obj _ => "[object Object]"

/-- Array elements under `Array.prototype.toString`. -/
def jToStringElems : List JValue → List String
  | [] => []
  | x :: rest =>
      (match x with
       | .null => ""
       | v => jToString v) :: jToStringElems rest

end

/-- Escaping of a string for `JSON.stringify` (the escapes this code can
encounter in practice: quote, backslash, and common control characters). -/
def jsonEscapeChar (c : Char) : String :=
  if c = '"' then "\\\""
  else if c = '\\' then "\\\\"
  else if c = '\n' then "\\n"
  else if c = '\r' then "\\r"
  else if c = '\t' then "\\t"
  else String.singleton c

/-- Escaped, quoted JSON string literal. -/
def jsonQuote (s : String) : String :=
  "\"" ++ String.join (s.data.map jsonEscapeChar) ++ "\""

mutual

/-- `JSON.stringify` on JSON-parsed values (no `undefined` members remain
after parsing, so every member is emitted). -/
def jsonStringify : JValue → String
  | .null => "null"
  | .bool b => if b then "true" else "false"
  | .num n => toString n
  | .str s => jsonQuote s
  | .arr xs => "[" ++ String.intercalate "," (jsonStringifyElems xs) ++ "]"
  | .obj fs => "\x7b" ++ String.intercalate "," (jsonStringifyFields fs) ++ "\x7d"

def jsonStringifyElems : List JValue → List String
  | [] => []
  | x :: rest => jsonStringify x :: jsonStringifyElems rest

def jsonStringifyFields : List (String × JValue) → List String
  | [] => []
  | (k, v) :: rest => (jsonQuote k ++ ":" ++ jsonStringify v) :: jsonStringifyFields rest

end

/-- A thrown JavaScript TypeError (property access or method call on an
unsuitable receiver). -/
inductive JsError where
  | typeError (msg : String)

/-- One canonical MCP content block: `{type: "text", text}` or
`{type: "image", data, mimeType}`.  The source can place arbitrary payload
values into `text` and `data`, so they are kept as `JValue`s. -/
inductive ContentBlock where
  | text (text : JValue)
  | image (data : JValue) (mimeType : String)

/-- The normalized result `{content: [...]}` of `convertToMCPResponse`. -/
structure MCPResponse where
  content : List ContentBlock

/-- Blocks contributed by one entry of a current-shape `messages` array
(unity.js lines 20-39): a `text`-typed entry yields one text block from its
`content`; an `image`-typed entry yields an optional caption (its truthy
`text` field) then an image block with fixed PNG mime type; every other
entry yields nothing.  Reading `.type` on a null entry throws. -/
def msgBlocks (m : JValue) : Except JsError (List ContentBlock) :=
  match m with
  | .null => .error (.typeError "Cannot read properties of null (reading type)")
  | m =>
      if strictEq (prop m "type") (.str "text") then
        .ok [.text (prop m "content")]
      else if strictEq (prop m "type") (.str "image") then
        .ok ((if truthy (prop m "text") then [ContentBlock.text (prop m "text")] else [])
              ++ [.image (prop m "content") "image/png"])
      else
        .ok []

/-- The `for (const msg of unityResponse.messages)` loop of unity.js. -/
def convertMessages : List JValue → Except JsError (List ContentBlock)
  | [] => .ok []
  | m :: rest =>
      match msgBlocks m with
      | .error e => .error e
      | .ok b =>
          match convertMessages rest with
          | .error e => .error e
          | .ok bs => .ok (b ++ bs)

/-- Rendering of one legacy `errors` entry (unity.js lines 80-87):
`typeof err === "object"` entries render as `Level: Message` with
capitalized names preferred over lowercase and `Info` / `Unknown error`
defaults (reading a field of a null entry throws); other entries render
via `toString()`. -/
def renderErr (e : JValue) : Except JsError String :=
  if typeofIsObject e then
    match e with
    | .null => .error (.typeError "Cannot read properties of null (reading Level)")
    | e =>
        .ok (jToString (jsOr (prop e "Level") (jsOr (prop e "level") (.str "Info")))
              ++ ": "
              ++ jToString (jsOr (prop e "Message") (jsOr (prop e "message") (.str "Unknown error"))))
  else
    .ok (jToString e)

/-- Map a fallible renderer down a list, stopping at the first throw. -/
def mapE (f : JValue → Except JsError String) : List JValue → Except JsError (List String)
  | [] => .ok []
  | x :: rest =>
      match f x with
      | .error e => .error e
      | .ok y =>
          match mapE f rest with
          | .error e => .error e
          | .ok ys => .ok (y :: ys)

/-- The `unityData.errors && unityData.errors.length > 0` branch of
unity.js (lines 79-93): a truthy `errors` with positive `length` is mapped
entry by entry (throwing a TypeError if `errors` is not actually an array)
and joined by newlines into one `Unity Logs:` text block. -/
def renderErrors (errs : JValue) : Except JsError (List ContentBlock) :=
  if truthy errs && jsGtZero (prop errs "length") then
    match errs with
    | .arr es =>
        match mapE renderErr es with
        | .error e => .error e
        | .ok lines =>
            .ok [.text (.str ("Unity Logs:\n" ++ String.intercalate "\n" lines))]
    | _ => .error (.typeError "unityData.errors.map is not a function")
  else
    .ok []

/-- The `if (unityData.message)` block of unity.js (lines 53-58). -/
def legacyMessageBlocks (v : JValue) : List ContentBlock :=
  if truthy (prop v "message") then [ContentBlock.text (prop v "message")] else []

/-- The `if (unityData.data && unityData.data !== unityData.message)` block
of unity.js (lines 60-65). -/
def legacyDataBlocks (v : JValue) : List ContentBlock :=
  if truthy (prop v "data") && !strictEq (prop v "data") (prop v "message")
  then [ContentBlock.text (prop v "data")] else []

/-- The `if (unityData.image)` block of unity.js (lines 67-77): a fixed
caption text block immediately followed by a PNG image block. -/
def legacyImageBlocks (v : JValue) : List ContentBlock :=
  if truthy (prop v "image")
  then [ContentBlock.text (.str "Unity Screenshot"),
        ContentBlock.image (prop v "image") "image/png"]
  else []

/-- The fallback block of unity.js lines 95-100, built from
`unityData.status || "Unknown"`. -/
def legacyStatusBlock (v : JValue) : ContentBlock :=
  .text (.str ("Unity Status: "
    ++ (if truthy (prop v "status") then jToString (prop v "status") else "Unknown")))

/-- `convertLegacyResponse` (unity.js lines 50-103).  Field order: `message`,
then `data` (only when truthy and strictly distinct from `message`), then
`image` (caption block plus image block), then `errors`; when none of these
produced a block, a single `Unity Status:` fallback block is emitted.
Reading any property of a null payload throws. -/
def convertLegacyResponse (v : JValue) : Except JsError MCPResponse :=
  match v with
  | .null => .error (.typeError "Cannot read properties of null (reading message)")
  | v =>
      match renderErrors (prop v "errors") with
      | .error e => .error e
      | .ok c4 =>
          let content := legacyMessageBlocks v ++ legacyDataBlocks v ++ legacyImageBlocks v ++ c4
          if content.isEmpty then
            .ok ⟨[legacyStatusBlock v]⟩
          else
            .ok ⟨content⟩

/-- `convertToMCPResponse` (unity.js lines 16-45).  The source guard is
`unityResponse.messages && Array.isArray(unityResponse.messages)`, which
holds exactly when the `messages` field value is an array (arrays are
always truthy); otherwise the payload falls through to
`convertLegacyResponse`.  Reading `.messages` on a null payload throws. -/
def convertToMCPResponse (v : JValue) : Except JsError MCPResponse :=
  match v with
  | .null => .error (.typeError "Cannot read properties of null (reading messages)")
  | v =>
      match prop v "messages" with
      | .arr msgs =>
          match convertMessages msgs with
          | .error e => .error e
          | .ok content => .ok ⟨content⟩
      | _ => convertLegacyResponse v

/-- Outcome of the single awaited `axios.post` call inside
`handleUnityRequest`: either a parsed success body, or a caught failure
carrying `error.message` and `error.response?.data` (absent when the
failure had no response body attached). -/
inductive UpstreamOutcome where
  | success (data : JValue)
  | failure (message : String) (responseData : Option JValue)

/-- The fixed connectivity-failure text block built in the catch handler of
`handleUnityRequest` (unity.js lines 123-126). -/
def connectionErrorText (msg : String) : String :=
  "Unity Connection Error: " ++ msg ++ "\nCheck: Unity running, Bridge Window open, Port 7777 active."

/-- Message carried by a thrown TypeError. -/
def jsErrMessage : JsError → String
  | .typeError m => m

/-- Blocks appended after the connectivity block (unity.js lines 128-138):
nothing when `error.response?.data` is absent or falsy; otherwise the
re-normalized body on success, or a single `Unity Error Details:` text
block with the body rendered by `JSON.stringify` when re-normalization
itself throws. -/
def failureRest (body : Option JValue) : List ContentBlock :=
  match body with
  | none => []
  | some d =>
      if truthy d then
        match convertToMCPResponse d with
        | .ok r => r.content
        | .error _ => [.text (.str ("Unity Error Details: " ++ jsonStringify d))]
      else []

/-- The try/catch body of `handleUnityRequest` (unity.js lines 108-142)
applied to the outcome of its one awaited HTTP call.  A success body is
normalized; if that normalization throws, the same catch handler runs with
the TypeError (whose `response` is undefined, so nothing is appended).  A
failure yields the connectivity block followed by `failureRest`. -/
def handleOutcome : UpstreamOutcome → MCPResponse
  | .success d =>
      match convertToMCPResponse d with
      | .ok r => r
      | .error e => ⟨[.text (.str (connectionErrorText (jsErrMessage e)))]⟩
  | .failure msg body =>
      ⟨.text (.str (connectionErrorText msg)) :: failureRest body⟩

/-- `handleUnityRequest(endpoint, data, timeout)` with the HTTP transport
abstracted as an oracle from the request triple to its outcome. -/
def handleUnityRequest (upstream : String → JValue → Nat → UpstreamOutcome)
    (endpoint : String) (data : JValue) (timeout : Nat) : MCPResponse :=
  handleOutcome (upstream endpoint data timeout)

/-- Validated arguments of the `camera_screenshot` tool (its schema requires
`position` and `target`, three numbers each; `fov`, `width`, `height` are
optional numbers). -/
structure CameraParams where
  position : List Int
  target : List Int
  fov : Option Int
  width : Option Int
  height : Option Int

/-- JavaScript `params.x || d` for an optional numeric parameter: the value
when present and nonzero, the default otherwise. -/
def jsOrNum (o : Option Int) (d : Int) : Int :=
  match o with
  | some n => if n ≠ 0 then n else d
  | none => d

/-- The request body object built by the `camera_screenshot` handler
(unity.js lines 214-220), in source property order. -/
def cameraRequestBody (p : CameraParams) : JValue :=
  .obj [("position", .arr (p.position.map JValue.num)),
        ("target", .arr (p.target.map JValue.num)),
        ("fov", .num (jsOrNum p.fov 60)),
        ("width", .num (jsOrNum p.width 1920)),
        ("height", .num (jsOrNum p.height 1080))]

/-- The `camera_screenshot` tool handler (unity.js lines 213-223). -/
def camera_screenshot_handler (upstream : String → JValue → Nat → UpstreamOutcome)
    (p : CameraParams) : MCPResponse :=
  handleUnityRequest upstream "/api/camera_screenshot" (cameraRequestBody p) 20000

/-- Is this value `null`? -/
def isNull : JValue → Bool
  | .null => true
  | _ => false

/-- Is this value a string or null (a field that is absent or a string)? -/
def strOrNull : JValue → Bool
  | .str _ => true
  | .null => true
  | _ => false

/-- A message entry as the spec data model describes it: not null (so that
property reads do not throw) and with a `text` field that, when present,
is a string. -/
def wfMsg (m : JValue) : Bool := !isNull m && strOrNull (prop m "text")

/-- Blocks one `messages` entry should contribute, written from the claim
wording: a `text`-typed entry yields one text block carrying its `content`;
an `image`-typed entry yields an image block (data from `content`, mime
type `image/png`) immediately preceded by a text block carrying its `text`
field exactly when that field is present and non-empty; any other entry
yields nothing. -/
def specEntryBlocks (m : JValue) : List ContentBlock :=
  match prop m "type" with
  | .str t =>
      if t = "text" then [ContentBlock.text (prop m "content")]
      else if t = "image" then
        (match prop m "text" with
         | .str s => if s ≠ "" then [ContentBlock.text (.str s)] else []
         | _ => []) ++ [ContentBlock.image (prop m "content") "image/png"]
      else []
  | _ => []

/-- Is this a legacy `errors` entry per the spec data model (a plain string
or an object)? -/
def errEntryShaped : JValue → Bool
  | .str _ => true
  | .obj _ => true
  | _ => false

/-- Is the named field absent or string-valued? -/
def optStrField (fs : List (String × JValue)) (k : String) : Bool :=
  match lookupField fs k with
  | none => true
  | some (.str _) => true
  | some _ => false

/-- Is an optional `errors` field absent or a sequence of shaped entries? -/
def errsFieldShaped : Option JValue → Bool
  | none => true
  | some (.arr es) => es.all errEntryShaped
  | some _ => false

/-- A legacy-shape payload per the spec data model: an object with no
`messages` field, whose `message`, `data`, `image` and `status` fields are
strings when present, and whose `errors` field, when present, is a
sequence of strings or objects. -/
def legacyShaped : JValue → Bool
  | .obj fs =>
      (lookupField fs "messages").isNone
      && optStrField fs "message" && optStrField fs "data"
      && optStrField fs "image" && optStrField fs "status"
      && errsFieldShaped (lookupField fs "errors")
  | _ => false

/-- The named field when it is a non-empty string. -/
def nonemptyStr : Option JValue → Option String
  | some (.str s) => if s = "" then none else some s
  | _ => none

/-- First non-empty string among the capitalized and lowercase spellings of
an error-entry field. -/
def pickName (fs : List (String × JValue)) (upper lower : String) : Option String :=
  match nonemptyStr (lookupField fs upper) with
  | some s => some s
  | none => nonemptyStr (lookupField fs lower)

/-- Rendering of one `errors` entry written from the claim wording: a plain
string renders as itself; an object renders as `Level: Message`, accepting
either capitalized or lowercase field names. -/
def renderErrSpec : JValue → String
  | .str s => s
  | .obj fs =>
      ((pickName fs "Level" "level").getD "") ++ ": " ++ ((pickName fs "Message" "message").getD "")
  | _ => ""

/-- An `errors` entry on which the claim wording and the source rendering
are defined and agree: a plain string, or an object whose `Level`/`level`
and `Message`/`message` fields are strings when present with at least one
non-empty spelling of each. -/
def goodErrEntry : JValue → Bool
  | .str _ => true
  | .obj fs =>
      optStrField fs "Level" && optStrField fs "level"
      && (pickName fs "Level" "level").isSome
      && optStrField fs "Message" && optStrField fs "message"
      && (pickName fs "Message" "message").isSome
  | _ => false

/-
Interactive wait_for_user tool (terminal tools module).  The handler shells
out once: on darwin through `execAsync` running an osascript dialog, on
other platforms through `spawnBackground` launching a detached terminal
window.  Both collaborators live in the process-helpers module, which the
spec treats as a black-box `(command) -> {stdout} | fails` contract; they
are abstracted as oracles from the command string to an outcome.
-/

/-- Outcome of one external process invocation: captured stdout, or a
rejection carrying the error message. -/
inductive ExecOutcome where
  | success (stdout : String)
  | failure (message : String)

/-- Validated arguments of `wait_for_user` with schema defaults applied
(`details` defaults to the empty string, `expect_answer` to false). -/
structure WaitArgs where
  request : String
  details : String
  expect_answer : Bool
  answer_placeholder : String

/-- Does the character list start with the given pattern? -/
def charsStartWith : List Char → List Char → Bool
  | [], _ => true
  | _ :: _, [] => false
  | p :: ps, c :: cs => p = c && charsStartWith ps cs

/-- The literal the handler greps dialog output for. -/
def textReturnedKey : List Char := "text returned:".data

/-- The JavaScript regex match `stdout.match(/text returned:(.+)/)`:
leftmost position where `text returned:` is followed by at least one
non-newline character; the capture is the maximal such run. -/
def scanCapture : List Char → Option String
  | [] => none
  | c :: cs =>
      if charsStartWith textReturnedKey (c :: cs) then
        let line := ((c :: cs).drop textReturnedKey.length).takeWhile (fun ch => ch ≠ '\n')
        if line.isEmpty then scanCapture cs else some (String.mk line)
      else scanCapture cs

/-- Does the list contain the pattern as a contiguous run? -/
def charsContain (pat : List Char) : List Char → Bool
  | [] => pat.isEmpty
  | c :: cs => charsStartWith pat (c :: cs) || charsContain pat cs

/-- `String.includes` of JavaScript. -/
def strContains (s pat : String) : Bool := charsContain pat.data s.data

/-- A single-quote character as a string (used when assembling the shell
command lines). -/
def sq : String := String.singleton (Char.ofNat 39)

/-- The global replace of each double quote by a backslash-escaped one, as
applied to the dialog text. -/
def escapeDQ (s : String) : String :=
  String.join (s.data.map (fun c => if c = '"' then "\\\"" else String.singleton c))

/-- Whitespace for `trim()` (the ASCII part of the JavaScript set, which is
all this code ever meets in osascript output). -/
def isWS (c : Char) : Bool := c = ' ' || c = '\t' || c = '\n' || c = '\r'

/-- JavaScript `trim()`. -/
def jsTrim (s : String) : String :=
  String.mk (((s.data.dropWhile isWS).reverse.dropWhile isWS).reverse)

/-- Dialog title: depends on the mode. -/
def waitTitle (args : WaitArgs) : String :=
  if args.expect_answer then "Вопрос от AI" else "Запрос действия"

/-- Request text with optional details appended. -/
def waitFullRequest (args : WaitArgs) : String :=
  if args.details ≠ "" then args.request ++ "\n\nДетали: " ++ args.details else args.request

/-- AppleScript for the free-text-answer dialog. -/
def darwinAnswerScript (args : WaitArgs) : String :=
  "display dialog \"" ++ escapeDQ (waitFullRequest args) ++ "\" with title \"" ++ waitTitle args
    ++ "\" default answer \"" ++ args.answer_placeholder
    ++ "\" buttons \x7b\"Отправить\", \"Отмена\"\x7d default button \"Отправить\""

/-- AppleScript for the confirm dialog. -/
def darwinConfirmScript (args : WaitArgs) : String :=
  "display dialog \"" ++ escapeDQ (waitFullRequest args) ++ "\" with title \"" ++ waitTitle args
    ++ "\" buttons \x7b\"Выполнено\", \"Отмена\"\x7d default button \"Выполнено\""

/-- Windows fallback command, answer mode. -/
def winAnswerCmd (args : WaitArgs) : String :=
  "start cmd /k \"echo " ++ waitTitle args ++ " && echo. && echo " ++ waitFullRequest args
    ++ " && echo. && echo Please type your answer in Cursor chat && echo. && pause\""

/-- Linux fallback command, answer mode. -/
def linuxAnswerCmd (args : WaitArgs) : String :=
  "x-terminal-emulator -e \"bash -c " ++ sq ++ "echo \\\"" ++ waitTitle args
    ++ "\\\"; echo; echo \\\"" ++ waitFullRequest args
    ++ "\\\"; echo; echo \\\"Please type your answer in Cursor chat\\\"; read -p \\\"Press Enter...\\\""
    ++ sq ++ "\""

/-- Windows fallback command, confirm mode. -/
def winConfirmCmd (args : WaitArgs) : String :=
  "start cmd /k \"echo " ++ waitTitle args ++ " && echo. && echo " ++ waitFullRequest args
    ++ " && echo. && echo Close this window when done && echo. && pause\""

/-- Linux fallback command, confirm mode. -/
def linuxConfirmCmd (args : WaitArgs) : String :=
  "x-terminal-emulator -e \"bash -c " ++ sq ++ "echo \\\"" ++ waitTitle args
    ++ "\\\"; echo; echo \\\"" ++ waitFullRequest args
    ++ "\\\"; echo; read -p \\\"Press Enter when done...\\\"" ++ sq ++ "\""

/-- The `wait_for_user` handler (terminal tools module).  On darwin the
osascript output is inspected: in answer mode a `text returned:` capture is
returned as `User Answer: "..."`, and any other outcome (no capture, or a
rejected exec) raises; the handler's inner catch converts every such raise
to `User cancelled input.` / `User cancelled operation.`, which the outer
catch then wraps as `Interaction Error: ...` — the embedded result strings
are the fully wrapped ones.  On other platforms the command is only
spawned in the background: the handler returns a fixed waiting message
immediately, and a spawn rejection is wrapped by the outer catch. -/
def wait_for_user_handler (os : String) (args : WaitArgs)
    (execA : String → ExecOutcome) (spawnBg : String → ExecOutcome) :
    Except String String :=
  if os = "darwin" then
    if args.expect_answer then
      match execA ("osascript -e " ++ sq ++ darwinAnswerScript args ++ sq) with
      | .success out =>
          match scanCapture out.data with
          | some captured => .ok ("User Answer: \"" ++ jsTrim captured ++ "\"")
          | none => .error "Interaction Error: User cancelled input."
      | .failure _ => .error "Interaction Error: User cancelled input."
    else
      match execA ("osascript -e " ++ sq ++ darwinConfirmScript args ++ sq) with
      | .success out =>
          if strContains out "Выполнено" then .ok "User confirmed execution."
          else .error "Interaction Error: User cancelled operation."
      | .failure _ => .error "Interaction Error: User cancelled operation."
  else
    if args.expect_answer then
      match spawnBg (if os = "win32" then winAnswerCmd args else linuxAnswerCmd args) with
      | .success _ => .ok "Waiting for user input in chat..."
      | .failure m => .error ("Interaction Error: " ++ m)
    else
      match spawnBg (if os = "win32" then winConfirmCmd args else linuxConfirmCmd args) with
      | .success _ => .ok "Waiting for user confirmation..."
      | .failure m => .error ("Interaction Error: " ++ m)

/-
Helper lemmas shared by the claim theorems.
-/

theorem prop_obj (fs : List (String × JValue)) (k : String) :
    prop (.obj fs) k = (lookupField fs k).getD .null := rfl

theorem optStrField_cases (fs : List (String × JValue)) (k : String)
    (h : optStrField fs k = true) :
    lookupField fs k = none ∨ ∃ s, lookupField fs k = some (.str s) := by
  unfold optStrField at h
  cases hl : lookupField fs k with
  | none => exact .inl rfl
  | some v =>
      rw [hl] at h
      cases v with
      | str s => exact .inr ⟨s, rfl⟩
      | null => simp at h
      | bool b => simp at h
      | num n => simp at h
      | arr xs => simp at h
      | obj gs => simp at h

theorem renderErr_ok_of_shaped (e : JValue) (h : errEntryShaped e = true) :
    ∃ s, renderErr e = .ok s := by
  cases e with
  | str s => exact ⟨_, rfl⟩
  | obj fs => exact ⟨_, rfl⟩
  | null => simp [errEntryShaped] at h
  | bool b => simp [errEntryShaped] at h
  | num n => simp [errEntryShaped] at h
  | arr xs => simp [errEntryShaped] at h

theorem mapE_ok_of_shaped : ∀ es : List JValue,
    (∀ e ∈ es, errEntryShaped e = true) → ∃ ys, mapE renderErr es = .ok ys
  | [], _ => ⟨[], rfl⟩
  | e :: rest, h => by
      obtain ⟨s, hs⟩ := renderErr_ok_of_shaped e (h e (List.mem_cons_self e rest))
      obtain ⟨ys, hys⟩ := mapE_ok_of_shaped rest (fun x hx => h x (List.mem_cons_of_mem _ hx))
      exact ⟨s :: ys, by simp [mapE, hs, hys]⟩

theorem legacyShaped_obj (fs : List (String × JValue)) (h : legacyShaped (.obj fs) = true) :
    lookupField fs "messages" = none
    ∧ (lookupField fs "errors" = none
        ∨ ∃ es, lookupField fs "errors" = some (.arr es) ∧ ∀ e ∈ es, errEntryShaped e = true) := by
  simp only [legacyShaped, Bool.and_eq_true] at h
  obtain ⟨⟨⟨⟨⟨hmsg, _⟩, _⟩, _⟩, _⟩, herr⟩ := h
  refine ⟨Option.isNone_iff_eq_none.mp hmsg, ?_⟩
  cases he : lookupField fs "errors" with
  | none => exact .inl rfl
  | some ev =>
      rw [he] at herr
      cases ev with
      | arr es => exact .inr ⟨es, rfl, by simpa [errsFieldShaped, List.all_eq_true] using herr⟩
      | null => simp [errsFieldShaped] at herr
      | bool b => simp [errsFieldShaped] at herr
      | num n => simp [errsFieldShaped] at herr
      | str s => simp [errsFieldShaped] at herr
      | obj gs => simp [errsFieldShaped] at herr

theorem renderErrors_ok_of_shaped (es : List JValue)
    (h : ∀ e ∈ es, errEntryShaped e = true) :
    ∃ c4, renderErrors (.arr es) = .ok c4 := by
  cases es with
  | nil => exact ⟨[], by simp [renderErrors, truthy, prop, jsGtZero]⟩
  | cons e rest =>
      obtain ⟨ys, hys⟩ := mapE_ok_of_shaped (e :: rest) h
      refine ⟨[.text (.str ("Unity Logs:\n" ++ String.intercalate "\n" ys))], ?_⟩
      simp [renderErrors, truthy, prop, jsGtZero, hys]

/-- C1 counterexample claim support: what `convertToMCPResponse` does on a
current-shape payload with an empty `messages` array. -/
theorem convert_on_legacy (fs : List (String × JValue))
    (hmsg : lookupField fs "messages" = none) :
    convertToMCPResponse (.obj fs) = convertLegacyResponse (.obj fs) := by
  have hpm : prop (.obj fs) "messages" = .null := by simp [prop, hmsg]
  simp only [convertToMCPResponse, hpm]

theorem renderErrors_of_absent (fs : List (String × JValue))
    (he : lookupField fs "errors" = none) :
    renderErrors (prop (.obj fs) "errors") = .ok [] := by
  simp [renderErrors, prop, he, truthy]

theorem convertLegacy_ok_nonempty (fs : List (String × JValue)) (c4 : List ContentBlock)
    (h4 : renderErrors (prop (.obj fs) "errors") = .ok c4) :
    ∃ r, convertLegacyResponse (.obj fs) = .ok r ∧ 1 ≤ r.content.length := by
  simp only [convertLegacyResponse, h4]
  split
  case isTrue => exact ⟨_, rfl, by simp⟩
  case isFalse hne =>
      refine ⟨_, rfl, ?_⟩
      simp only [List.isEmpty_iff] at hne
      exact Nat.one_le_iff_ne_zero.mpr (fun h0 => hne (List.length_eq_zero.mp h0))

/-
C1.  The claim quantifies over every payload, current-shape included.  It
fails on the current-shape payload whose `messages` array is empty: the
loop body never runs and `convertToMCPResponse` returns zero content
blocks (the status fallback lives only in `convertLegacyResponse`).  The
claim restricted to legacy-shape payloads, as the testable-properties
section of the spec states it, is proved below.
-/

/-- C1 counterexample: the current-shape payload with an empty `messages`
array is normalized to an empty content sequence, so the content sequence
does not contain at least one block. -/
theorem normalizer_empty_messages_yields_no_blocks :
    convertToMCPResponse (.obj [("messages", .arr [])]) = .ok ⟨[]⟩ := rfl

/-- C1 (amended): for every legacy-shape payload, recognized or
unrecognized, the Normalizer succeeds and its content sequence contains at
least one block. -/
theorem legacy_payload_content_nonempty (v : JValue) (h : legacyShaped v = true) :
    ∃ r, convertToMCPResponse v = .ok r ∧ 1 ≤ r.content.length := by
  cases v with
  | obj fs =>
      obtain ⟨hmsg, herr⟩ := legacyShaped_obj fs h
      rw [convert_on_legacy fs hmsg]
      have h4 : ∃ c4, renderErrors (prop (.obj fs) "errors") = .ok c4 := by
        rcases herr with he | ⟨es, he, hes⟩
        · exact ⟨[], renderErrors_of_absent fs he⟩
        · have hr := renderErrors_ok_of_shaped es hes
          simpa [prop, he] using hr
      obtain ⟨c4, h4⟩ := h4
      exact convertLegacy_ok_nonempty fs c4 h4
  | null => simp [legacyShaped] at h
  | bool b => simp [legacyShaped] at h
  | num n => simp [legacyShaped] at h
  | str s => simp [legacyShaped] at h
  | arr xs => simp [legacyShaped] at h

/-- C1 witness: the amended theorem applied to the concrete legacy payload
carrying only a status field. -/
theorem legacy_payload_content_nonempty_witness :
    legacyShaped (.obj [("status", .str "idle")]) = true
    ∧ ∃ r, convertToMCPResponse (.obj [("status", .str "idle")]) = .ok r
        ∧ 1 ≤ r.content.length :=
  ⟨rfl, legacy_payload_content_nonempty (.obj [("status", .str "idle")]) rfl⟩

/-
C2.  The failure path of handleUnityRequest.
-/

/-- C2: every invocation whose upstream HTTP call fails returns a content
sequence instead of raising; the first block is a text block with the
connectivity failure message plus the fixed remediation hint; with no (or
a falsy) structured failure body that block is alone; with a truthy
structured body the blocks of its re-normalization are appended, or, when
re-normalization itself raises, one text block with the raw body rendered
by `JSON.stringify` is appended instead. -/
theorem handleUnityRequest_failure_path
    (upstream : String → JValue → Nat → UpstreamOutcome) (endpoint : String)
    (data : JValue) (tmo : Nat) (msg : String) (body : Option JValue)
    (hfail : upstream endpoint data tmo = .failure msg body) :
    ∃ rest, handleUnityRequest upstream endpoint data tmo =
        ⟨.text (.str (connectionErrorText msg)) :: rest⟩
      ∧ (body = none → rest = [])
      ∧ (∀ d, body = some d → truthy d = false → rest = [])
      ∧ (∀ d r, body = some d → truthy d = true → convertToMCPResponse d = .ok r →
          rest = r.content)
      ∧ (∀ d e, body = some d → truthy d = true → convertToMCPResponse d = .error e →
          rest = [.text (.str ("Unity Error Details: " ++ jsonStringify d))]) := by
  refine ⟨failureRest body, ?_, ?_, ?_, ?_, ?_⟩
  · simp [handleUnityRequest, hfail, handleOutcome]
  · intro hb; simp [failureRest, hb]
  · intro d hb ht; simp [failureRest, hb, ht]
  · intro d r hb ht hc; simp [failureRest, hb, ht, hc]
  · intro d e hb ht hc; simp [failureRest, hb, ht, hc]

/-- C2 witness: a concrete timeout failure whose structured body
`(obj with errors the array holding null)` makes re-normalization throw
(reading a property of a null error entry), so the raw body is appended as
a single text block after the connectivity block. -/
theorem handleUnityRequest_failure_path_witness :
    handleUnityRequest
        (fun _ _ _ => .failure "timeout of 10000ms exceeded"
          (some (.obj [("errors", .arr [.null])])))
        "/api/screenshot" (.obj []) 10000 =
      ⟨[.text (.str (connectionErrorText "timeout of 10000ms exceeded")),
        .text (.str "Unity Error Details: \x7b\"errors\":[null]\x7d")]⟩ := by
  obtain ⟨rest, h1, _, _, _, h5⟩ :=
    handleUnityRequest_failure_path
      (fun _ _ _ => .failure "timeout of 10000ms exceeded"
        (some (.obj [("errors", .arr [.null])])))
      "/api/screenshot" (.obj []) 10000
      "timeout of 10000ms exceeded" (some (.obj [("errors", .arr [.null])])) rfl
  rw [h1, h5 _ _ rfl rfl rfl]
  rfl

/-
C3.  Shape priority.  As stated the claim fails: the source guard also
requires the messages field to be an array, so a payload carrying a
non-array `messages` field falls through to the legacy rules and its
legacy fields do contribute blocks.  The amended claim requires the
`messages` field to be a sequence, as the decision procedure section of
the spec words it.
-/

/-- C3 counterexample: a payload that has a `messages` field (the non-array
string value x) together with a legacy `message` field is normalized by
the legacy rules, and the legacy field contributes the only output
block. -/
theorem messages_field_nonarray_uses_legacy :
    convertToMCPResponse (.obj [("messages", .str "x"), ("message", .str "X")])
      = .ok ⟨[.text (.str "X")]⟩
    ∧ (lookupField [("messages", JValue.str "x"), ("message", JValue.str "X")] "messages").isSome
        = true :=
  ⟨rfl, rfl⟩

/-- C3 (amended): for every payload whose `messages` field is an array, the
Normalizer output is determined by the current-shape rules on that array
alone, so none of the legacy fields also present contribute any block. -/
theorem messages_array_ignores_legacy_fields (fs : List (String × JValue)) (l : List JValue)
    (h : lookupField fs "messages" = some (.arr l)) :
    convertToMCPResponse (.obj fs) =
      (convertMessages l).map (fun content => MCPResponse.mk content) := by
  have hp : prop (.obj fs) "messages" = .arr l := by simp [prop, h]
  simp only [convertToMCPResponse, hp]
  cases convertMessages l <;> simp [Except.map]

/-- C3 witness: the amended theorem applied to a payload carrying both an
array-valued `messages` field and a legacy `message` field. -/
theorem messages_array_ignores_legacy_fields_witness :
    convertToMCPResponse
        (.obj [("messages", .arr [.obj [("type", .str "text"), ("content", .str "hi")]]),
               ("message", .str "IGNORED")])
      = .ok ⟨[.text (.str "hi")]⟩ := by
  rw [messages_array_ignores_legacy_fields
    [("messages", .arr [.obj [("type", .str "text"), ("content", .str "hi")]]),
     ("message", .str "IGNORED")]
    [.obj [("type", .str "text"), ("content", .str "hi")]] rfl]
  rfl

/-
C4.  Current-shape mapping, via a refinement: `specEntryBlocks` is written
from the claim wording and proved to agree with the source loop on
well-formed entries.
-/

theorem strictEq_str_iff (v : JValue) (s : String) :
    strictEq v (.str s) = true ↔ v = .str s := by
  cases v <;> simp [strictEq]

theorem msgBlocks_eq_spec (m : JValue) (h : wfMsg m = true) :
    msgBlocks m = .ok (specEntryBlocks m) := by
  simp only [wfMsg, Bool.and_eq_true] at h
  obtain ⟨hnn, htext⟩ := h
  cases m with
  | null => simp [isNull] at hnn
  | bool b => rfl
  | num n => rfl
  | str s => rfl
  | arr xs => rfl
  | obj gs =>
      cases ht : lookupField gs "type" with
      | none => simp [msgBlocks, specEntryBlocks, prop, ht, strictEq]
      | some tv =>
          cases tv with
          | str t =>
              by_cases h1 : t = "text"
              · subst h1
                simp [msgBlocks, specEntryBlocks, prop, ht, strictEq]
              · by_cases h2 : t = "image"
                · subst h2
                  cases hx : lookupField gs "text" with
                  | none =>
                      simp [msgBlocks, specEntryBlocks, prop, ht, hx, strictEq, truthy]
                  | some xv =>
                      cases xv with
                      | str s =>
                          by_cases hs : s = "" <;>
                            simp [msgBlocks, specEntryBlocks, prop, ht, hx, strictEq, truthy, hs]
                      | null =>
                          simp [msgBlocks, specEntryBlocks, prop, ht, hx, strictEq, truthy]
                      | bool b => simp [strOrNull, prop, hx] at htext
                      | num n => simp [strOrNull, prop, hx] at htext
                      | arr xs => simp [strOrNull, prop, hx] at htext
                      | obj os => simp [strOrNull, prop, hx] at htext
                · simp [msgBlocks, specEntryBlocks, prop, ht, strictEq, h1, h2]
          | null => simp [msgBlocks, specEntryBlocks, prop, ht, strictEq]
          | bool b => simp [msgBlocks, specEntryBlocks, prop, ht, strictEq]
          | num n => simp [msgBlocks, specEntryBlocks, prop, ht, strictEq]
          | arr xs => simp [msgBlocks, specEntryBlocks, prop, ht, strictEq]
          | obj os => simp [msgBlocks, specEntryBlocks, prop, ht, strictEq]

theorem convertMessages_eq_spec : ∀ l : List JValue,
    (∀ m ∈ l, wfMsg m = true) →
    convertMessages l = .ok (l.flatMap specEntryBlocks)
  | [], _ => rfl
  | m :: rest, h => by
      have h1 := msgBlocks_eq_spec m (h m (List.mem_cons_self m rest))
      have h2 := convertMessages_eq_spec rest (fun x hx => h x (List.mem_cons_of_mem _ hx))
      simp [convertMessages, h1, h2]

/-- C4: a current-shape payload is normalized by mapping its `messages`
entries in input order through `specEntryBlocks`: a text entry yields one
text block from its content; an image entry yields a PNG image block from
its content, immediately preceded by a caption text block exactly when its
text field is present and non-empty; any other entry yields nothing and
causes no error. -/
theorem current_shape_maps_entries_in_order (fs : List (String × JValue)) (l : List JValue)
    (hm : lookupField fs "messages" = some (.arr l))
    (hwf : ∀ m ∈ l, wfMsg m = true) :
    convertToMCPResponse (.obj fs) = .ok ⟨l.flatMap specEntryBlocks⟩ := by
  have hp : prop (.obj fs) "messages" = .arr l := by simp [prop, hm]
  simp only [convertToMCPResponse, hp, convertMessages_eq_spec l hwf]

/-- C4 witness: the caption-then-image pairing on the concrete example, and
the same entry without a text field yielding only the image block. -/
theorem current_shape_maps_entries_in_order_witness :
    convertToMCPResponse
        (.obj [("messages", .arr
          [.obj [("type", .str "image"), ("content", .str "AAAA"), ("text", .str "caption")]])])
      = .ok ⟨[.text (.str "caption"), .image (.str "AAAA") "image/png"]⟩
    ∧ convertToMCPResponse
        (.obj [("messages", .arr [.obj [("type", .str "image"), ("content", .str "AAAA")]])])
      = .ok ⟨[.image (.str "AAAA") "image/png"]⟩ := by
  constructor
  · rw [current_shape_maps_entries_in_order
      [("messages", .arr
        [.obj [("type", .str "image"), ("content", .str "AAAA"), ("text", .str "caption")]])]
      [.obj [("type", .str "image"), ("content", .str "AAAA"), ("text", .str "caption")]]
      rfl (by decide)]
    rfl
  · rw [current_shape_maps_entries_in_order
      [("messages", .arr [.obj [("type", .str "image"), ("content", .str "AAAA")]])]
      [.obj [("type", .str "image"), ("content", .str "AAAA")]]
      rfl (by decide)]
    rfl

/-
C5.  Legacy message/data de-duplication.
-/

/-- C5: a legacy payload with non-empty string `message` and `data` fields
and no `image` or `errors` fields yields exactly one text block when the
two fields coincide, and the two blocks message-then-data otherwise. -/
theorem legacy_message_data_dedup (fs : List (String × JValue)) (m d : String)
    (hmsgs : lookupField fs "messages" = none)
    (hm : lookupField fs "message" = some (.str m)) (hm0 : m ≠ "")
    (hd : lookupField fs "data" = some (.str d)) (hd0 : d ≠ "")
    (hi : lookupField fs "image" = none)
    (he : lookupField fs "errors" = none) :
    convertToMCPResponse (.obj fs) =
      .ok ⟨if d = m then [.text (.str m)] else [.text (.str m), .text (.str d)]⟩ := by
  rw [convert_on_legacy fs hmsgs]
  by_cases hdm : d = m
  · simp [convertLegacyResponse, renderErrors, jsGtZero, legacyMessageBlocks, legacyDataBlocks,
      legacyImageBlocks, prop, hm, hd, hi, he, truthy, strictEq, hm0, hd0, hdm]
  · simp [convertLegacyResponse, renderErrors, jsGtZero, legacyMessageBlocks, legacyDataBlocks,
      legacyImageBlocks, prop, hm, hd, hi, he, truthy, strictEq, hm0, hd0, hdm]

/-- C5 witness: the two concrete payloads of the claim. -/
theorem legacy_message_data_dedup_witness :
    convertToMCPResponse (.obj [("message", .str "X"), ("data", .str "X")])
      = .ok ⟨[.text (.str "X")]⟩
    ∧ convertToMCPResponse (.obj [("message", .str "X"), ("data", .str "Y")])
      = .ok ⟨[.text (.str "X"), .text (.str "Y")]⟩ := by
  constructor
  · rw [legacy_message_data_dedup [("message", .str "X"), ("data", .str "X")] "X" "X"
      rfl rfl (by decide) rfl (by decide) rfl rfl]
    rfl
  · rw [legacy_message_data_dedup [("message", .str "X"), ("data", .str "Y")] "X" "Y"
      rfl rfl (by decide) rfl (by decide) rfl rfl]
    rfl

/-
C6.  Legacy errors rendering, via a refinement: `renderErrSpec` is written
from the claim wording and proved to agree with the source rendering on
entries where both are defined.
-/

theorem jsOr_pick (fs : List (String × JValue)) (kU kL dflt : String)
    (hU : optStrField fs kU = true) (hL : optStrField fs kL = true)
    (hp : (pickName fs kU kL).isSome = true) :
    jToString (jsOr (prop (.obj fs) kU) (jsOr (prop (.obj fs) kL) (.str dflt)))
      = (pickName fs kU kL).getD "" := by
  rcases optStrField_cases fs kU hU with h1 | ⟨s, h1⟩
  · rcases optStrField_cases fs kL hL with h2 | ⟨t, h2⟩
    · simp [pickName, nonemptyStr, h1, h2] at hp
    · by_cases ht : t = ""
      · simp [pickName, nonemptyStr, h1, h2, ht] at hp
      · simp [pickName, nonemptyStr, prop, h1, h2, ht, jsOr, truthy, jToString]
  · by_cases hs : s = ""
    · rcases optStrField_cases fs kL hL with h2 | ⟨t, h2⟩
      · simp [pickName, nonemptyStr, h1, h2, hs] at hp
      · by_cases ht : t = ""
        · simp [pickName, nonemptyStr, h1, h2, hs, ht] at hp
        · simp [pickName, nonemptyStr, prop, h1, h2, hs, ht, jsOr, truthy, jToString]
    · simp [pickName, nonemptyStr, prop, h1, hs, jsOr, truthy, jToString]

theorem renderErr_eq_spec (e : JValue) (h : goodErrEntry e = true) :
    renderErr e = .ok (renderErrSpec e) := by
  cases e with
  | str s => rfl
  | obj fs =>
      simp only [goodErrEntry, Bool.and_eq_true] at h
      obtain ⟨⟨⟨⟨⟨hU, hL⟩, hpL⟩, hM⟩, hm⟩, hpM⟩ := h
      have e1 := jsOr_pick fs "Level" "level" "Info" hU hL hpL
      have e2 := jsOr_pick fs "Message" "message" "Unknown error" hM hm hpM
      simp [renderErr, renderErrSpec, typeofIsObject, e1, e2]
  | null => simp [goodErrEntry] at h
  | bool b => simp [goodErrEntry] at h
  | num n => simp [goodErrEntry] at h
  | arr xs => simp [goodErrEntry] at h

theorem mapE_eq_spec : ∀ es : List JValue,
    (∀ e ∈ es, goodErrEntry e = true) →
    mapE renderErr es = .ok (es.map renderErrSpec)
  | [], _ => rfl
  | e :: rest, h => by
      have h1 := renderErr_eq_spec e (h e (List.mem_cons_self e rest))
      have h2 := mapE_eq_spec rest (fun x hx => h x (List.mem_cons_of_mem _ hx))
      simp [mapE, h1, h2]

/-- C6: a legacy payload whose `errors` field is a non-empty sequence of
well-formed entries ends its content with exactly one text block under the
fixed `Unity Logs:` heading, whose body renders every entry (object
entries as `Level: Message` accepting either capitalization, string
entries as themselves) joined by newlines. -/
theorem legacy_errors_single_log_block (fs : List (String × JValue)) (es : List JValue)
    (hmsgs : lookupField fs "messages" = none)
    (he : lookupField fs "errors" = some (.arr es))
    (hne : es ≠ [])
    (hgood : ∀ e ∈ es, goodErrEntry e = true) :
    ∃ r pre, convertToMCPResponse (.obj fs) = .ok r
      ∧ r.content = pre
          ++ [.text (.str ("Unity Logs:\n" ++ String.intercalate "\n" (es.map renderErrSpec)))] := by
  rw [convert_on_legacy fs hmsgs]
  have hmap := mapE_eq_spec es hgood
  have h4 : renderErrors (prop (.obj fs) "errors")
      = .ok [.text (.str ("Unity Logs:\n" ++ String.intercalate "\n" (es.map renderErrSpec)))] := by
    cases es with
    | nil => exact absurd rfl hne
    | cons a rest => simp [renderErrors, prop, he, truthy, jsGtZero, hmap]
  refine ⟨⟨legacyMessageBlocks (.obj fs) ++ legacyDataBlocks (.obj fs) ++ legacyImageBlocks (.obj fs)
      ++ [.text (.str ("Unity Logs:\n" ++ String.intercalate "\n" (es.map renderErrSpec)))]⟩,
    legacyMessageBlocks (.obj fs) ++ legacyDataBlocks (.obj fs) ++ legacyImageBlocks (.obj fs),
    ?_, ?_⟩
  · simp [convertLegacyResponse, h4]
  · simp

/-- C6 witness: the concrete errors array of the claim, rendered as one log
block with the two lines joined by a newline. -/
theorem legacy_errors_single_log_block_witness :
    (∃ r pre, convertToMCPResponse
        (.obj [("errors", .arr
          [.obj [("Level", .str "Warning"), ("Message", .str "oops")], .str "plain string"])])
      = .ok r
      ∧ r.content = pre ++ [.text (.str ("Unity Logs:\n" ++ String.intercalate "\n"
          ([.obj [("Level", .str "Warning"), ("Message", .str "oops")],
            .str "plain string"].map renderErrSpec)))])
    ∧ convertToMCPResponse
        (.obj [("errors", .arr
          [.obj [("Level", .str "Warning"), ("Message", .str "oops")], .str "plain string"])])
      = .ok ⟨[.text (.str "Unity Logs:\nWarning: oops\nplain string")]⟩ :=
  ⟨legacy_errors_single_log_block
      [("errors", .arr [.obj [("Level", .str "Warning"), ("Message", .str "oops")], .str "plain string"])]
      [.obj [("Level", .str "Warning"), ("Message", .str "oops")], .str "plain string"]
      rfl rfl (List.cons_ne_nil _ _) (by decide),
   rfl⟩

/-
C7.  Legacy image caption pairing, and the camera_screenshot end-to-end
scenario.
-/

/-- C7: a legacy payload with a non-empty `image` field emits the fixed
screenshot caption text block immediately followed by a PNG image block
carrying the field value; consequently the camera_screenshot handler with
position zero-one-two and target the origin, against an upstream replying
with just an image field, returns exactly that caption-image pair. -/
theorem legacy_image_caption_pairing :
    (∀ (fs : List (String × JValue)) (b : String),
      lookupField fs "messages" = none →
      lookupField fs "image" = some (.str b) → b ≠ "" →
      errsFieldShaped (lookupField fs "errors") = true →
      ∃ r pre post, convertToMCPResponse (.obj fs) = .ok r
        ∧ r.content = pre ++ [.text (.str "Unity Screenshot"), .image (.str b) "image/png"] ++ post)
    ∧ (∀ b : String, b ≠ "" →
      camera_screenshot_handler
          (fun _ _ _ => .success (.obj [("image", .str b)]))
          ⟨[0, 1, 2], [0, 0, 0], none, none, none⟩
        = ⟨[.text (.str "Unity Screenshot"), .image (.str b) "image/png"]⟩) := by
  constructor
  · intro fs b hmsgs hi hb herrs
    rw [convert_on_legacy fs hmsgs]
    have h4 : ∃ c4, renderErrors (prop (.obj fs) "errors") = .ok c4 := by
      cases he : lookupField fs "errors" with
      | none => exact ⟨[], renderErrors_of_absent fs he⟩
      | some ev =>
          rw [he] at herrs
          cases ev with
          | arr es =>
              have hr := renderErrors_ok_of_shaped es
                (by simpa [errsFieldShaped, List.all_eq_true] using herrs)
              simpa [prop, he] using hr
          | null => simp [errsFieldShaped] at herrs
          | bool v => simp [errsFieldShaped] at herrs
          | num v => simp [errsFieldShaped] at herrs
          | str v => simp [errsFieldShaped] at herrs
          | obj v => simp [errsFieldShaped] at herrs
    obtain ⟨c4, h4⟩ := h4
    have hib : legacyImageBlocks (.obj fs)
        = [.text (.str "Unity Screenshot"), .image (.str b) "image/png"] := by
      simp [legacyImageBlocks, prop, hi, truthy, hb]
    refine ⟨⟨legacyMessageBlocks (.obj fs) ++ legacyDataBlocks (.obj fs)
        ++ legacyImageBlocks (.obj fs) ++ c4⟩,
      legacyMessageBlocks (.obj fs) ++ legacyDataBlocks (.obj fs), c4, ?_, ?_⟩
    · simp [convertLegacyResponse, h4, hib]
    · simp [hib]
  · intro b hb
    have hc : convertToMCPResponse (.obj [("image", JValue.str b)])
        = .ok ⟨[.text (.str "Unity Screenshot"), .image (.str b) "image/png"]⟩ := by
      rw [convert_on_legacy [("image", JValue.str b)] rfl]
      simp [convertLegacyResponse, renderErrors, jsGtZero, legacyMessageBlocks,
        legacyDataBlocks, legacyImageBlocks, prop, lookupField, truthy, hb]
    simp [camera_screenshot_handler, handleUnityRequest, handleOutcome, hc]

/-- C7 witness: both parts applied to the concrete base64 string. -/
theorem legacy_image_caption_pairing_witness :
    (∃ r pre post, convertToMCPResponse (.obj [("image", .str "QkFTRTY0")]) = .ok r
        ∧ r.content = pre
            ++ [.text (.str "Unity Screenshot"), .image (.str "QkFTRTY0") "image/png"] ++ post)
    ∧ camera_screenshot_handler
          (fun _ _ _ => .success (.obj [("image", .str "QkFTRTY0")]))
          ⟨[0, 1, 2], [0, 0, 0], none, none, none⟩
        = ⟨[.text (.str "Unity Screenshot"), .image (.str "QkFTRTY0") "image/png"]⟩ :=
  ⟨legacy_image_caption_pairing.1 [("image", .str "QkFTRTY0")] "QkFTRTY0" rfl rfl (by decide) rfl,
   legacy_image_caption_pairing.2 "QkFTRTY0" (by decide)⟩

/-
C8.  Status fallback.  Shared helper: when no field produces a block, the
output is exactly the fallback status block.
-/

theorem legacy_only_fallback (fs : List (String × JValue))
    (hmsgs : lookupField fs "messages" = none)
    (h1 : truthy (prop (.obj fs) "message") = false)
    (h2 : truthy (prop (.obj fs) "data") = false)
    (h3 : truthy (prop (.obj fs) "image") = false)
    (h4 : prop (.obj fs) "errors" = .null ∨ prop (.obj fs) "errors" = .arr []) :
    convertToMCPResponse (.obj fs) = .ok ⟨[legacyStatusBlock (.obj fs)]⟩ := by
  rw [convert_on_legacy fs hmsgs]
  have h4' : renderErrors (prop (.obj fs) "errors") = .ok [] := by
    rcases h4 with h | h <;> rw [h] <;> simp [renderErrors, truthy, jsGtZero, prop]
  simp [convertLegacyResponse, h4', legacyMessageBlocks, legacyDataBlocks, legacyImageBlocks,
    h1, h2, h3]

/-- C8: a legacy payload in which none of the message, data, image or errors
fields produce a block is normalized to exactly one fallback text block;
the block states the status field when that field is a non-empty string,
and the Unknown sentinel when the field is absent. -/
theorem legacy_status_fallback (fs : List (String × JValue))
    (hmsgs : lookupField fs "messages" = none)
    (h1 : truthy (prop (.obj fs) "message") = false)
    (h2 : truthy (prop (.obj fs) "data") = false)
    (h3 : truthy (prop (.obj fs) "image") = false)
    (h4 : prop (.obj fs) "errors" = .null ∨ prop (.obj fs) "errors" = .arr []) :
    ∃ t, convertToMCPResponse (.obj fs) = .ok ⟨[.text (.str ("Unity Status: " ++ t))]⟩
      ∧ (∀ s, lookupField fs "status" = some (.str s) → s ≠ "" → t = s)
      ∧ (lookupField fs "status" = none → t = "Unknown") := by
  refine ⟨if truthy (prop (.obj fs) "status") then jToString (prop (.obj fs) "status")
      else "Unknown", ?_, ?_, ?_⟩
  · simpa [legacyStatusBlock] using legacy_only_fallback fs hmsgs h1 h2 h3 h4
  · intro s hs hs0
    simp [prop, hs, truthy, jToString, hs0]
  · intro hs
    simp [prop, hs, truthy]

/-- C8 witness: the concrete payload with only a status field, yielding the
single block mentioning idle. -/
theorem legacy_status_fallback_witness :
    (∃ t, convertToMCPResponse (.obj [("status", .str "idle")])
        = .ok ⟨[.text (.str ("Unity Status: " ++ t))]⟩
      ∧ (∀ s, lookupField [("status", JValue.str "idle")] "status" = some (.str s) → s ≠ "" → t = s)
      ∧ (lookupField [("status", JValue.str "idle")] "status" = none → t = "Unknown"))
    ∧ convertToMCPResponse (.obj [("status", .str "idle")])
        = .ok ⟨[.text (.str "Unity Status: idle")]⟩ :=
  ⟨legacy_status_fallback [("status", .str "idle")] rfl rfl rfl rfl (.inl rfl), rfl⟩

/-
C10.  Empty-string legacy fields behave as absent fields.
-/

/-- C10: a legacy field holding the empty string gains no block, so an
otherwise-empty payload with empty-string message, data and image fields
yields only the status fallback block; an empty-string status renders as
the Unknown sentinel; and a current-shape image entry with an empty-string
text field yields no caption block before its image block. -/
theorem empty_string_fields_treated_absent :
    (∀ fs : List (String × JValue),
      lookupField fs "messages" = none →
      (lookupField fs "message" = none ∨ lookupField fs "message" = some (.str "")) →
      (lookupField fs "data" = none ∨ lookupField fs "data" = some (.str "")) →
      (lookupField fs "image" = none ∨ lookupField fs "image" = some (.str "")) →
      lookupField fs "errors" = none →
      convertToMCPResponse (.obj fs) = .ok ⟨[legacyStatusBlock (.obj fs)]⟩)
    ∧ (∀ fs : List (String × JValue),
      lookupField fs "status" = some (.str "") →
      legacyStatusBlock (.obj fs) = .text (.str "Unity Status: Unknown"))
    ∧ (∀ c : JValue,
      convertToMCPResponse (.obj [("messages", .arr
          [.obj [("type", .str "image"), ("content", c), ("text", .str "")]])])
        = .ok ⟨[.image c "image/png"]⟩) := by
  refine ⟨?_, ?_, ?_⟩
  · intro fs hmsgs hm hd hi he
    apply legacy_only_fallback fs hmsgs
    · rcases hm with h | h <;> simp [prop, h, truthy]
    · rcases hd with h | h <;> simp [prop, h, truthy]
    · rcases hi with h | h <;> simp [prop, h, truthy]
    · exact .inl (by simp [prop, he])
  · intro fs hs
    simp [legacyStatusBlock, prop, hs, truthy]
  · intro c
    have hp : prop (.obj [("messages", .arr
        [.obj [("type", .str "image"), ("content", c), ("text", .str "")]])]) "messages"
        = .arr [.obj [("type", .str "image"), ("content", c), ("text", .str "")]] := rfl
    simp only [convertToMCPResponse, hp]
    simp [convertMessages, msgBlocks, prop, lookupField, strictEq, truthy]

/-- C10 witness: the payload whose legacy fields are all empty strings, and
the current-shape image entry with an empty caption. -/
theorem empty_string_fields_treated_absent_witness :
    convertToMCPResponse
        (.obj [("message", .str ""), ("data", .str ""), ("image", .str ""), ("status", .str "")])
      = .ok ⟨[.text (.str "Unity Status: Unknown")]⟩
    ∧ convertToMCPResponse (.obj [("messages", .arr
        [.obj [("type", .str "image"), ("content", .str "Z"), ("text", .str "")]])])
      = .ok ⟨[.image (.str "Z") "image/png"]⟩ := by
  constructor
  · rw [empty_string_fields_treated_absent.1
      [("message", .str ""), ("data", .str ""), ("image", .str ""), ("status", .str "")]
      rfl (.inr rfl) (.inr rfl) (.inr rfl) rfl]
    rw [empty_string_fields_treated_absent.2.1
      [("message", .str ""), ("data", .str ""), ("image", .str ""), ("status", .str "")] rfl]
  · exact empty_string_fields_treated_absent.2.2 (.str "Z")

/-
C9.  wait_for_user.  As stated the claim fails: on win32 and linux the
handler only spawns a detached terminal window and returns a fixed waiting
message at once — the result is not the entered answer, never a
cancellation failure, and does not depend on what the human does.  The
darwin paths do behave as claimed.
-/

/-- C9 counterexample: on linux in answer mode the handler returns the same
fixed waiting string whether the dialog oracle reports an entered answer
or a dismissal, so the result is neither the entered answer nor a
user-cancelled failure. -/
theorem wait_for_user_linux_ignores_response :
    wait_for_user_handler "linux" ⟨"Q", "", true, "Введите ваш ответ..."⟩
        (fun _ => .success "text returned:hello") (fun _ => .success "")
      = .ok "Waiting for user input in chat..."
    ∧ wait_for_user_handler "linux" ⟨"Q", "", true, "Введите ваш ответ..."⟩
        (fun _ => .failure "User dismissed the dialog") (fun _ => .success "")
      = .ok "Waiting for user input in chat..." :=
  ⟨rfl, rfl⟩

/-- C9 (amended): on darwin the call returns exactly one string — the
entered answer wrapped as a User Answer string in answer mode, the fixed
confirmation string in confirm mode — or fails with a user-cancelled
error; on every other platform, when the background spawn succeeds, the
call immediately returns a fixed waiting-message string that does not
involve the user response. -/
theorem wait_for_user_result_shape (args : WaitArgs) (ex sp : String → ExecOutcome) :
    (args.expect_answer = true →
      (∃ a, wait_for_user_handler "darwin" args ex sp = .ok ("User Answer: \"" ++ a ++ "\""))
      ∨ wait_for_user_handler "darwin" args ex sp
          = .error "Interaction Error: User cancelled input.")
    ∧ (args.expect_answer = false →
      wait_for_user_handler "darwin" args ex sp = .ok "User confirmed execution."
      ∨ wait_for_user_handler "darwin" args ex sp
          = .error "Interaction Error: User cancelled operation.")
    ∧ (∀ os, os ≠ "darwin" → (∀ c, ∃ o, sp c = .success o) →
      (args.expect_answer = true →
        wait_for_user_handler os args ex sp = .ok "Waiting for user input in chat...")
      ∧ (args.expect_answer = false →
        wait_for_user_handler os args ex sp = .ok "Waiting for user confirmation...")) := by
  refine ⟨?_, ?_, ?_⟩
  · intro ha
    cases hxe : ex ("osascript -e " ++ sq ++ darwinAnswerScript args ++ sq) with
    | success out =>
        cases hsc : scanCapture out.data with
        | some cpt =>
            exact .inl ⟨jsTrim cpt, by simp [wait_for_user_handler, ha, hxe, hsc]⟩
        | none => exact .inr (by simp [wait_for_user_handler, ha, hxe, hsc])
    | failure m => exact .inr (by simp [wait_for_user_handler, ha, hxe])
  · intro ha
    cases hxe : ex ("osascript -e " ++ sq ++ darwinConfirmScript args ++ sq) with
    | success out =>
        by_cases hc : strContains out "Выполнено" = true
        · exact .inl (by simp [wait_for_user_handler, ha, hxe, hc])
        · exact .inr (by simp [wait_for_user_handler, ha, hxe, hc])
    | failure m => exact .inr (by simp [wait_for_user_handler, ha, hxe])
  · intro os hos hsp
    constructor
    · intro ha
      obtain ⟨o, ho⟩ := hsp (if os = "win32" then winAnswerCmd args else linuxAnswerCmd args)
      simp [wait_for_user_handler, hos, ha, ho]
    · intro ha
      obtain ⟨o, ho⟩ := hsp (if os = "win32" then winConfirmCmd args else linuxConfirmCmd args)
      simp [wait_for_user_handler, hos, ha, ho]

/-- C9 witness: the darwin answer mode applied to a dialog oracle whose
stdout carries a text-returned capture, together with the concrete
evaluation showing the returned string is the entered answer. -/
theorem wait_for_user_result_shape_witness :
    ((∃ a, wait_for_user_handler "darwin" ⟨"Q", "", true, "ph"⟩
          (fun _ => .success "button returned:OK, text returned:hello")
          (fun _ => .success "") = .ok ("User Answer: \"" ++ a ++ "\""))
      ∨ wait_for_user_handler "darwin" ⟨"Q", "", true, "ph"⟩
          (fun _ => .success "button returned:OK, text returned:hello")
          (fun _ => .success "") = .error "Interaction Error: User cancelled input.")
    ∧ wait_for_user_handler "darwin" ⟨"Q", "", true, "ph"⟩
        (fun _ => .success "button returned:OK, text returned:hello")
        (fun _ => .success "") = .ok "User Answer: \"hello\"" :=
  ⟨(wait_for_user_result_shape ⟨"Q", "", true, "ph"⟩
      (fun _ => .success "button returned:OK, text returned:hello")
      (fun _ => .success "")).1 rfl,
   rfl⟩

end UnityMCP
